import Mathlib

/-!
# Verification of the UniTune worker's admission and content-negotiation core

Shallow embedding of the request admission and content-negotiation layer of
the UniTune Cloudflare worker:

* the token-bucket rate limiter (`RateLimiter.checkLimit`, `getClientIp`),
* the metadata cache and fetch (`fetchAndCacheMetadata`),
* the share-link decoder (`handleShareLink` decode portion,
  `reconstructMusicUrl`, URL-safe Base64),
* the bot classifier (`isSocialMediaBot`).

Conventions of the embedding:

* JavaScript numbers are modelled as `ℚ` where fractional values can occur
  (token counts read back from JSON) and as `Int`/`Nat` where the code only
  ever holds integers (timestamps in milliseconds, counters, HTTP statuses).
* A fallible external call (KV `get`/`put`) is modelled as an
  `Except Unit α` value describing the outcome of that call: `.ok` for a
  normal return and `.error ()` for a thrown exception.
* `async`/`await` sequencing is modelled by ordinary sequential evaluation;
  each handler invocation is a pure function of the request data, the current
  time, and the outcome of each external call it performs.
-/

namespace Unitune

/-! ## Rate limiter (rate_limiter source file)

`MAX_TOKENS`, `REFILL_RATE`, `WINDOW_SIZE` as in the source. -/

/-- `const MAX_TOKENS = 60` (maximum tokens in bucket). -/
def MAX_TOKENS : ℚ := 60

/-- `const REFILL_RATE = 1` (tokens added per second). -/
def REFILL_RATE : ℚ := 1

/-- `const WINDOW_SIZE = 60` (time window in seconds). -/
def WINDOW_SIZE : Int := 60

/-- The per-IP rate limit state stored in KV under `ratelimit:{ip}`:
`{tokens, lastRefill, requestCount}`.  `tokens` is a JS number (modelled as
`ℚ` since a stored JSON value may be fractional), `lastRefill` is a
millisecond timestamp, `requestCount` a counter. -/
structure RLState where
  tokens : ℚ
  lastRefill : Int
  requestCount : Int
deriving DecidableEq, Repr

/-- Result object returned by `checkLimit`:
`{allowed: boolean, retryAfter?: number}`. -/
structure CheckResult where
  allowed : Bool
  retryAfter : Option Int
deriving DecidableEq, Repr

/-- Outcome of the two KV calls a single `checkLimit` invocation can make:
`get` either returns the stored state (`none` when the key is absent) or
throws; `put` either succeeds or throws. -/
structure KVBehavior where
  get : Except Unit (Option RLState)
  put : Except Unit Unit

/-- Observable outcome of one `checkLimit` invocation: the returned result,
the state (with its `expirationTtl`) passed to `kv.put` when that put
succeeded, and whether the store was touched at all. -/
structure CheckOutcome where
  result : CheckResult
  persisted : Option (RLState × Int)
  accessedStore : Bool
deriving DecidableEq, Repr

/-- The refill step of `checkLimit` (lines 56-64 of the source):

```js
const timeSinceLastRefill = (now - state.lastRefill) / 1000;
const tokensToAdd = Math.floor(timeSinceLastRefill * REFILL_RATE);
if (tokensToAdd > 0) {
    state.tokens = Math.min(MAX_TOKENS, state.tokens + tokensToAdd);
    state.lastRefill = now;
}
```
-/
def refillState (now : Int) (s : RLState) : RLState :=
  let timeSinceLastRefill : ℚ := ((now - s.lastRefill : Int) : ℚ) / 1000
  let tokensToAdd : Int := Int.floor (timeSinceLastRefill * REFILL_RATE)
  if tokensToAdd > 0 then
    { s with tokens := min MAX_TOKENS (s.tokens + (tokensToAdd : ℚ)), lastRefill := now }
  else s

/-- `RateLimiter.checkLimit(clientIp, kv)`.  A falsy `clientIp` is the empty
string; an absent `kv` binding is `none`.  `now = Date.now()`.  The whole
body after the guard is wrapped in `try { ... } catch { return {allowed:
true} }`, so a throwing `get` or `put` yields `{allowed: true}` with nothing
persisted. -/
def checkLimit (clientIp : String) (kv : Option KVBehavior) (now : Int) : CheckOutcome :=
  match kv with
  | none => ⟨⟨true, none⟩, none, false⟩
  | some k =>
    if clientIp = "" then ⟨⟨true, none⟩, none, false⟩
    else
      match k.get with
      | .error _ => ⟨⟨true, none⟩, none, true⟩
      | .ok stateJson =>
        let state :=
          match stateJson with
          | some s => s
          | none => ⟨MAX_TOKENS, now, 0⟩
        let state := refillState now state
        if state.tokens ≥ 1 then
          let final : RLState :=
            ⟨state.tokens - 1, state.lastRefill, state.requestCount + 1⟩
          match k.put with
          | .error _ => ⟨⟨true, none⟩, none, true⟩
          | .ok _ => ⟨⟨true, none⟩, some (final, WINDOW_SIZE * 2), true⟩
        else
          let tokensNeeded : ℚ := 1
          let secondsUntilToken : ℚ := tokensNeeded / REFILL_RATE
          let retryAfter : Int := Int.ceil secondsUntilToken
          match k.put with
          | .error _ => ⟨⟨true, none⟩, none, true⟩
          | .ok _ => ⟨⟨false, some retryAfter⟩, some (state, WINDOW_SIZE * 2), true⟩

/-! ## String helpers shared by the embedding

`String.prototype.split(sep)` for a single-character separator, JS-style
`trim`, and substring search, all on `List Char`. -/

/-- JS `s.split(sep)` for a one-character separator.  `"".split(x) = [""]`,
so the result is always nonempty. -/
def splitOnChar (sep : Char) : List Char → List (List Char)
  | [] => [[]]
  | c :: rest =>
    match splitOnChar sep rest with
    | [] => [[]]
    | h :: t => if c = sep then [] :: h :: t else (c :: h) :: t

theorem splitOnChar_ne_nil (sep : Char) (l : List Char) : splitOnChar sep l ≠ [] := by
  cases l with
  | nil => simp [splitOnChar]
  | cons c rest =>
    simp only [splitOnChar]
    cases h : splitOnChar sep rest with
    | nil => simp
    | cons h t =>
      by_cases hc : c = sep <;> simp [hc]

/-- The whitespace characters stripped by JS `String.prototype.trim`
(ASCII portion; the inputs of interest contain no exotic whitespace). -/
def isJsWhitespace (c : Char) : Bool :=
  c = ' ' ∨ c = '\t' ∨ c = '\n' ∨ c = '\r' ∨ c = '\x0b' ∨ c = '\x0c'

/-- JS `s.trim()`: strip whitespace from both ends. -/
def trimJs (s : String) : String :=
  ⟨((s.data.dropWhile isJsWhitespace).reverse.dropWhile isJsWhitespace).reverse⟩

/-- First comma-separated entry of a string: `s.split(',')[0]`. -/
def firstCommaEntry (s : String) : String :=
  match splitOnChar ',' s.data with
  | [] => ""
  | h :: _ => ⟨h⟩

/-- JS truthiness for a nullable string header value: `null` and `""` are
falsy. -/
def truthyStr : Option String → Option String
  | none => none
  | some s => if s = "" then none else some s

/-- `getClientIp(request)` from the rate limiter source: CF-Connecting-IP
first, then the first comma-separated entry of X-Forwarded-For (trimmed),
then X-Real-IP, then the literal `"unknown"`.  The three arguments are the
values of `request.headers.get(...)` for the three headers (`none` =
absent). -/
def getClientIp (cfConnectingIp xForwardedFor xRealIp : Option String) : String :=
  match truthyStr cfConnectingIp with
  | some ip => ip
  | none =>
    match truthyStr xForwardedFor with
    | some v => trimJs (firstCommaEntry v)
    | none =>
      match truthyStr xRealIp with
      | some ip => ip
      | none => "unknown"

/-! ## Spec-side rate limiter

`checkLimitSpec` follows the words of the specification's §4.1 algorithm
(steps 1-4), to be compared with `checkLimit`, which is translated from the
source.  It describes the non-error path only (the spec treats store errors
separately under failure semantics). -/

/-- The §4.1 algorithm as written in the spec, for the non-error path.
Step 1: read state; if absent initialize `tokens = MAX_TOKENS`,
`lastRefill = now`.  Step 2: add `floor(elapsed × REFILL_RATE)` tokens
capped at `MAX_TOKENS`, updating `lastRefill = now` only when tokens were
added.  Step 3: if `tokens >= 1` decrement by 1, increment `requestCount`,
persist with TTL `WINDOW_SIZE × 2`, allow.  Step 4: else persist the
unchanged-except-refill state with the same TTL and reject with
`retryAfter = ceil(1 / REFILL_RATE)`. -/
def checkLimitSpec (stored : Option RLState) (now : Int) : CheckResult × (RLState × Int) :=
  let s0 : RLState :=
    match stored with
    | some s => s
    | none => ⟨MAX_TOKENS, now, 0⟩
  let elapsed : ℚ := ((now - s0.lastRefill : Int) : ℚ) / 1000
  let add : Int := Int.floor (elapsed * REFILL_RATE)
  let s1 : RLState :=
    if add > 0 then ⟨min MAX_TOKENS (s0.tokens + (add : ℚ)), now, s0.requestCount⟩ else s0
  if s1.tokens ≥ 1 then
    (⟨true, none⟩, ⟨⟨s1.tokens - 1, s1.lastRefill, s1.requestCount + 1⟩, WINDOW_SIZE * 2⟩)
  else
    (⟨false, some (Int.ceil ((1 : ℚ) / REFILL_RATE))⟩, ⟨s1, WINDOW_SIZE * 2⟩)

/-! ## Theorems about the rate limiter -/

/-- C1: for every client IP and every store whose `get` or `put` call
throws, `checkLimit(clientIp, store)` returns `{allowed: true}` (fail-open).
The whole store interaction is inside `try/catch`, so the model is a total
function: no store exception reaches the caller, and the result on every
thrown `get`/`put` is `{allowed: true}` — never a denial. -/
theorem checkLimit_fail_open (clientIp : String) (k : KVBehavior) (now : Int)
    (h : (∃ e, k.get = .error e) ∨ (∃ e, k.put = .error e)) :
    (checkLimit clientIp (some k) now).result.allowed = true := by
  unfold checkLimit
  dsimp only
  by_cases hip : clientIp = ""
  · rw [if_pos hip]
  · rw [if_neg hip]
    rcases h with ⟨e, hg⟩ | ⟨e, hp⟩
    · rw [hg]
    · cases hg : k.get with
      | error e' => rfl
      | ok stateJson =>
        rw [hp]
        dsimp only
        split <;> rfl

/-- Witness for `checkLimit_fail_open`: a store whose `get` throws. -/
theorem checkLimit_fail_open_witness :
    ((∃ e, (⟨Except.error (), Except.ok ()⟩ : KVBehavior).get = .error e) ∨
      (∃ e, (⟨Except.error (), Except.ok ()⟩ : KVBehavior).put = .error e)) ∧
    (checkLimit "1.2.3.4" (some ⟨Except.error (), Except.ok ()⟩) 0).result.allowed = true :=
  ⟨Or.inl ⟨(), rfl⟩,
    checkLimit_fail_open "1.2.3.4" ⟨Except.error (), Except.ok ()⟩ 0 (Or.inl ⟨(), rfl⟩)⟩

/-- C2: on the non-error path (truthy IP, `get` and `put` succeed), the
source's `checkLimit` returns exactly the result of the spec's §4.1
algorithm and persists exactly the state/TTL that algorithm prescribes:
fresh state is `tokens = 60, lastRefill = now`; on admission tokens drop by
exactly 1, `requestCount` rises by exactly 1, TTL is 120 s; on rejection the
state is unchanged except for the refill (no `requestCount` bump) and the
result is `{allowed: false, retryAfter: 1}`. -/
theorem checkLimit_follows_spec (clientIp : String) (stored : Option RLState)
    (now : Int) (k : KVBehavior) (hip : clientIp ≠ "")
    (hget : k.get = .ok stored) (hput : k.put = .ok ()) :
    (checkLimit clientIp (some k) now).result = (checkLimitSpec stored now).1 ∧
    (checkLimit clientIp (some k) now).persisted = some (checkLimitSpec stored now).2 := by
  unfold checkLimit checkLimitSpec refillState
  dsimp only
  rw [hget, hput, if_neg hip]
  dsimp only
  split_ifs <;> exact ⟨rfl, rfl⟩

/-- Witness for `checkLimit_follows_spec`: fresh IP, empty store, `now = 0`;
the call is admitted and persists `tokens = 59, requestCount = 1` with TTL
120. -/
theorem checkLimit_follows_spec_witness :
    ("1.2.3.4" ≠ "" ∧ (⟨Except.ok none, Except.ok ()⟩ : KVBehavior).get = .ok none ∧
      (⟨Except.ok none, Except.ok ()⟩ : KVBehavior).put = .ok ()) ∧
    ((checkLimit "1.2.3.4" (some ⟨Except.ok none, Except.ok ()⟩) 0).result =
      (checkLimitSpec none 0).1 ∧
     (checkLimit "1.2.3.4" (some ⟨Except.ok none, Except.ok ()⟩) 0).persisted =
      some (checkLimitSpec none 0).2) :=
  ⟨⟨by decide, rfl, rfl⟩,
    checkLimit_follows_spec "1.2.3.4" none 0 ⟨Except.ok none, Except.ok ()⟩
      (by decide) rfl rfl⟩

theorem refillState_bounds (now : Int) (s : RLState)
    (h0 : 0 ≤ s.tokens) (h1 : s.tokens ≤ MAX_TOKENS) :
    0 ≤ (refillState now s).tokens ∧ (refillState now s).tokens ≤ MAX_TOKENS := by
  unfold refillState
  dsimp only
  split_ifs with h
  · refine ⟨le_min (by norm_num [MAX_TOKENS]) (add_nonneg h0 ?_), min_le_left _ _⟩
    exact_mod_cast h.le
  · exact ⟨h0, h1⟩

/-- Any state a single `checkLimit` call persists is within the token
bounds, provided any state the store hands back is. -/
theorem checkLimit_persist_bounds (ip : String) (k : KVBehavior) (now : Int)
    (s : RLState) (ttl : Int)
    (hk : ∀ st, k.get = .ok (some st) → 0 ≤ st.tokens ∧ st.tokens ≤ MAX_TOKENS)
    (hp : (checkLimit ip (some k) now).persisted = some (s, ttl)) :
    0 ≤ s.tokens ∧ s.tokens ≤ MAX_TOKENS := by
  unfold checkLimit at hp
  dsimp only at hp
  by_cases hip : ip = ""
  · rw [if_pos hip] at hp; exact absurd hp (by simp)
  · rw [if_neg hip] at hp
    cases hg : k.get with
    | error e => rw [hg] at hp; exact absurd hp (by simp)
    | ok stateJson =>
      rw [hg] at hp
      dsimp only at hp
      cases stateJson with
      | none =>
        have href := refillState_bounds now ⟨MAX_TOKENS, now, 0⟩
          (by norm_num [MAX_TOKENS]) (le_refl _)
        dsimp only at hp
        split_ifs at hp with htok
        · cases hput : k.put with
          | error e => rw [hput] at hp; exact absurd hp (by simp)
          | ok u =>
            rw [hput] at hp
            dsimp only at hp
            injection hp with hp
            injection hp with hp1 hp2
            subst hp1
            exact ⟨by dsimp only; linarith, by dsimp only; linarith [href.2]⟩
        · cases hput : k.put with
          | error e => rw [hput] at hp; exact absurd hp (by simp)
          | ok u =>
            rw [hput] at hp
            dsimp only at hp
            injection hp with hp
            injection hp with hp1 hp2
            subst hp1
            exact href
      | some st =>
        have href := refillState_bounds now st (hk st hg).1 (hk st hg).2
        dsimp only at hp
        split_ifs at hp with htok
        · cases hput : k.put with
          | error e => rw [hput] at hp; exact absurd hp (by simp)
          | ok u =>
            rw [hput] at hp
            dsimp only at hp
            injection hp with hp
            injection hp with hp1 hp2
            subst hp1
            exact ⟨by dsimp only; linarith, by dsimp only; linarith [href.2]⟩
        · cases hput : k.put with
          | error e => rw [hput] at hp; exact absurd hp (by simp)
          | ok u =>
            rw [hput] at hp
            dsimp only at hp
            injection hp with hp
            injection hp with hp1 hp2
            subst hp1
            exact href

/-- A sequence of `checkLimit` calls against the same stored key.  Each call
is described by its time and whether the KV `get`/`put` succeed; the store
content evolves by successful `put`s.  The trace records, per call, the
state (with TTL) persisted by that call (`none` when nothing was
persisted). -/
def limiterTrace (ip : String) (stored : Option RLState) :
    List (Int × Bool × Bool) → List (Option (RLState × Int))
  | [] => []
  | (t, g, p) :: rest =>
    let k : KVBehavior :=
      ⟨if g then .ok stored else .error (), if p then .ok () else .error ()⟩
    let out := checkLimit ip (some k) t
    let stored' :=
      match out.persisted with
      | some (s, _) => some s
      | none => stored
    out.persisted :: limiterTrace ip stored' rest

/-- C3: token-bucket bounds invariant.  Starting from any stored state
within `0 ≤ tokens ≤ MAX_TOKENS` (or an empty key) and any sequence of
`checkLimit` calls at non-decreasing times (with arbitrary per-call store
success/failure), every state persisted by any call satisfies
`0 ≤ tokens ≤ MAX_TOKENS = 60`. -/
theorem checkLimit_tokens_bounded (ip : String) (s0 : Option RLState)
    (calls : List (Int × Bool × Bool))
    (hs0 : ∀ s, s0 = some s → 0 ≤ s.tokens ∧ s.tokens ≤ MAX_TOKENS)
    (hmono : (calls.map (fun c => c.1)).Chain' (· ≤ ·)) :
    ∀ o ∈ limiterTrace ip s0 calls, ∀ s ttl, o = some (s, ttl) →
      0 ≤ s.tokens ∧ s.tokens ≤ MAX_TOKENS := by
  induction calls generalizing s0 with
  | nil => intro o ho; simp [limiterTrace] at ho
  | cons c rest ih =>
    obtain ⟨t, g, p⟩ := c
    have hk : ∀ st,
        (⟨if g then .ok s0 else .error (), if p then .ok () else .error ()⟩ :
          KVBehavior).get = .ok (some st) →
        0 ≤ st.tokens ∧ st.tokens ≤ MAX_TOKENS := by
      intro st hst
      dsimp only at hst
      cases g with
      | false => simp at hst
      | true => exact hs0 st (by simpa using hst)
    intro o ho
    simp only [limiterTrace, List.mem_cons] at ho
    rcases ho with rfl | ho
    · intro s ttl hpers
      exact checkLimit_persist_bounds ip _ t s ttl hk hpers
    · have hmono' : ((rest.map (fun c => c.1)).Chain' (· ≤ ·)) := by
        simpa using (List.chain'_cons'.mp (by simpa using hmono)).2
      refine ih _ ?_ hmono' o ho
      intro s hs
      rcases hpers : (checkLimit ip
          (some ⟨if g then .ok s0 else .error (), if p then .ok () else .error ()⟩) t).persisted
        with _ | ⟨s', ttl'⟩
      · rw [hpers] at hs
        exact hs0 s hs
      · rw [hpers] at hs
        have := checkLimit_persist_bounds ip _ t s' ttl' hk hpers
        cases hs
        exact this

/-- Witness for `checkLimit_tokens_bounded`: fresh key, two calls one second
apart, both store operations succeeding. -/
theorem checkLimit_tokens_bounded_witness :
    ((∀ s, (none : Option RLState) = some s → 0 ≤ s.tokens ∧ s.tokens ≤ MAX_TOKENS) ∧
      (([(0, true, true), (1000, true, true)] :
        List (Int × Bool × Bool)).map (fun c => c.1)).Chain' (· ≤ ·)) ∧
    (∀ o ∈ limiterTrace "1.2.3.4" none [(0, true, true), (1000, true, true)],
      ∀ s ttl, o = some (s, ttl) → 0 ≤ s.tokens ∧ s.tokens ≤ MAX_TOKENS) :=
  ⟨⟨fun s h => by simp at h, by simp⟩,
    checkLimit_tokens_bounded "1.2.3.4" none [(0, true, true), (1000, true, true)]
      (fun s h => by simp at h) (by simp)⟩

/-- C7 (amended): measured from the state's `lastRefill`, the refill at a
check adds `floor(elapsed × REFILL_RATE)` tokens capped at `MAX_TOKENS`, so
the token count available at the check equals
`min(MAX_TOKENS, tokens_before + floor(Δt))`; `lastRefill` is set to `now`
exactly when the computed refill amount is positive; and the call then
consumes one token when it admits: the persisted count is the available
count minus 1 on admission, and the available count unchanged on
rejection. -/
theorem refill_floor_elapsed (ip : String) (s : RLState) (now : Int) (k : KVBehavior)
    (hip : ip ≠ "") (h1 : s.tokens ≤ MAX_TOKENS)
    (hnow : s.lastRefill ≤ now)
    (hget : k.get = .ok (some s)) (hput : k.put = .ok ()) :
    (refillState now s).tokens =
      min MAX_TOKENS (s.tokens +
        ((Int.floor (((now - s.lastRefill : Int) : ℚ) / 1000 * REFILL_RATE) : Int) : ℚ)) ∧
    (0 < Int.floor (((now - s.lastRefill : Int) : ℚ) / 1000 * REFILL_RATE) →
      (refillState now s).lastRefill = now) ∧
    (Int.floor (((now - s.lastRefill : Int) : ℚ) / 1000 * REFILL_RATE) ≤ 0 →
      (refillState now s).lastRefill = s.lastRefill) ∧
    (1 ≤ (refillState now s).tokens →
      (checkLimit ip (some k) now).result.allowed = true ∧
      (checkLimit ip (some k) now).persisted =
        some (⟨(refillState now s).tokens - 1, (refillState now s).lastRefill,
               s.requestCount + 1⟩, 120)) ∧
    ((refillState now s).tokens < 1 →
      (checkLimit ip (some k) now).result.allowed = false ∧
      (checkLimit ip (some k) now).persisted = some (refillState now s, 120)) := by
  have hq : (0:ℚ) ≤ ((now - s.lastRefill : Int) : ℚ) / 1000 * REFILL_RATE := by
    have hc : (0:ℚ) ≤ ((now - s.lastRefill : Int) : ℚ) := by
      exact_mod_cast sub_nonneg.mpr hnow
    have := div_nonneg hc (by norm_num : (0:ℚ) ≤ 1000)
    rw [REFILL_RATE]
    linarith
  have hfl : 0 ≤ Int.floor (((now - s.lastRefill : Int) : ℚ) / 1000 * REFILL_RATE) :=
    Int.floor_nonneg.mpr hq
  have hA : (refillState now s).tokens =
      min MAX_TOKENS (s.tokens +
        ((Int.floor (((now - s.lastRefill : Int) : ℚ) / 1000 * REFILL_RATE) : Int) : ℚ)) := by
    unfold refillState
    dsimp only
    split_ifs with h
    · rfl
    · push_neg at h
      have hz : Int.floor (((now - s.lastRefill : Int) : ℚ) / 1000 * REFILL_RATE) = 0 :=
        le_antisymm h hfl
      rw [hz]
      push_cast
      rw [add_zero]
      exact (min_eq_right h1).symm
  have hrc : (refillState now s).requestCount = s.requestCount := by
    unfold refillState
    dsimp only
    split_ifs <;> rfl
  refine ⟨hA, ?_, ?_, ?_, ?_⟩
  · intro h
    unfold refillState
    dsimp only
    rw [if_pos h]
  · intro h
    unfold refillState
    dsimp only
    rw [if_neg (by omega)]
  · intro hge
    unfold checkLimit
    dsimp only
    rw [hget, if_neg hip]
    dsimp only
    rw [if_pos (show (refillState now s).tokens ≥ 1 from hge), hput]
    dsimp only
    refine ⟨rfl, ?_⟩
    rw [hrc]
    norm_num [WINDOW_SIZE]
  · intro hlt
    unfold checkLimit
    dsimp only
    rw [hget, if_neg hip]
    dsimp only
    rw [if_neg (show ¬ ((refillState now s).tokens ≥ 1) from not_le.mpr hlt), hput]
    dsimp only
    norm_num [WINDOW_SIZE]

/-- Witness for `refill_floor_elapsed`: the state `{tokens: 59, lastRefill:
0, requestCount: 1}` checked at `now = 1000` ms. -/
theorem refill_floor_elapsed_witness :
    (("1.2.3.4" : String) ≠ "" ∧ (⟨59, 0, 1⟩ : RLState).tokens ≤ MAX_TOKENS ∧
      (⟨59, 0, 1⟩ : RLState).lastRefill ≤ (1000 : Int) ∧
      (⟨Except.ok (some ⟨59, 0, 1⟩), Except.ok ()⟩ : KVBehavior).get = .ok (some ⟨59, 0, 1⟩) ∧
      (⟨Except.ok (some ⟨59, 0, 1⟩), Except.ok ()⟩ : KVBehavior).put = .ok ()) ∧
    ((refillState 1000 ⟨59, 0, 1⟩).tokens =
      min MAX_TOKENS ((⟨59, 0, 1⟩ : RLState).tokens +
        ((Int.floor (((1000 - (⟨59, 0, 1⟩ : RLState).lastRefill : Int) : ℚ) / 1000 *
          REFILL_RATE) : Int) : ℚ)) ∧
    (0 < Int.floor (((1000 - (⟨59, 0, 1⟩ : RLState).lastRefill : Int) : ℚ) / 1000 *
        REFILL_RATE) →
      (refillState 1000 ⟨59, 0, 1⟩).lastRefill = 1000) ∧
    (Int.floor (((1000 - (⟨59, 0, 1⟩ : RLState).lastRefill : Int) : ℚ) / 1000 *
        REFILL_RATE) ≤ 0 →
      (refillState 1000 ⟨59, 0, 1⟩).lastRefill = (⟨59, 0, 1⟩ : RLState).lastRefill) ∧
    (1 ≤ (refillState 1000 ⟨59, 0, 1⟩).tokens →
      (checkLimit "1.2.3.4" (some ⟨Except.ok (some ⟨59, 0, 1⟩), Except.ok ()⟩)
          1000).result.allowed = true ∧
      (checkLimit "1.2.3.4" (some ⟨Except.ok (some ⟨59, 0, 1⟩), Except.ok ()⟩)
          1000).persisted =
        some (⟨(refillState 1000 ⟨59, 0, 1⟩).tokens - 1,
               (refillState 1000 ⟨59, 0, 1⟩).lastRefill,
               (⟨59, 0, 1⟩ : RLState).requestCount + 1⟩, 120)) ∧
    ((refillState 1000 ⟨59, 0, 1⟩).tokens < 1 →
      (checkLimit "1.2.3.4" (some ⟨Except.ok (some ⟨59, 0, 1⟩), Except.ok ()⟩)
          1000).result.allowed = false ∧
      (checkLimit "1.2.3.4" (some ⟨Except.ok (some ⟨59, 0, 1⟩), Except.ok ()⟩)
          1000).persisted = some (refillState 1000 ⟨59, 0, 1⟩, 120))) :=
  ⟨⟨by decide, by norm_num [MAX_TOKENS], by decide, rfl, rfl⟩,
    refill_floor_elapsed "1.2.3.4" ⟨59, 0, 1⟩ 1000
      ⟨Except.ok (some ⟨59, 0, 1⟩), Except.ok ()⟩
      (by decide) (by norm_num [MAX_TOKENS]) (by decide) rfl rfl⟩

/-- C7 counterexample: fresh IP; the first call at `t = 0` persists
`tokens = 59`, and the second call, Δt = 1 second later with no admissions
in between, persists `tokens = 59`, whereas the claim as stated predicts
`min(MAX_TOKENS, 59 + floor(Δt)) = 60` — it ignores the token the second
(admitted) call itself consumes. -/
theorem refill_monotonicity_cex :
    limiterTrace "1.2.3.4" none [((0 : Int), true, true), ((1000 : Int), true, true)] =
      [some (⟨59, 0, 1⟩, 120), some (⟨59, 1000, 2⟩, 120)] ∧
    ¬ ((59 : ℚ) = min MAX_TOKENS ((59 : ℚ) +
        ((Int.floor (((1000 - 0 : Int) : ℚ) / 1000 * REFILL_RATE) : Int) : ℚ))) := by
  constructor
  · norm_num +decide [limiterTrace, checkLimit, refillState, MAX_TOKENS, REFILL_RATE,
      WINDOW_SIZE]
  · norm_num [MAX_TOKENS, REFILL_RATE]

/-- C10: a request with no CF-Connecting-IP whose X-Forwarded-For value is
nonempty but has an empty (after trimming) first comma-separated entry makes
`getClientIp` return `""`, and `checkLimit` with a falsy client IP allows
the request without ever touching the store — such requests bypass rate
limiting even when the store is available. -/
theorem empty_xff_entry_bypasses_rate_limit (v : String) (xRealIp : Option String)
    (k : KVBehavior) (now : Int)
    (hv : v ≠ "") (hfirst : trimJs (firstCommaEntry v) = "") :
    getClientIp none (some v) xRealIp = "" ∧
    checkLimit (getClientIp none (some v) xRealIp) (some k) now =
      ⟨⟨true, none⟩, none, false⟩ := by
  have h1 : getClientIp none (some v) xRealIp = "" := by
    unfold getClientIp truthyStr
    dsimp only
    rw [if_neg hv]
    exact hfirst
  refine ⟨h1, ?_⟩
  rw [h1]
  simp [checkLimit]

/-- Witness for `empty_xff_entry_bypasses_rate_limit`:
`X-Forwarded-For: ,1.2.3.4`. -/
theorem empty_xff_entry_bypasses_rate_limit_witness :
    ((",1.2.3.4" : String) ≠ "" ∧ trimJs (firstCommaEntry ",1.2.3.4") = "") ∧
    (getClientIp none (some ",1.2.3.4") none = "" ∧
     checkLimit (getClientIp none (some ",1.2.3.4") none)
        (some ⟨Except.ok none, Except.ok ()⟩) 0 = ⟨⟨true, none⟩, none, false⟩) :=
  ⟨⟨by decide, by decide⟩,
    empty_xff_entry_bypasses_rate_limit ",1.2.3.4" none ⟨Except.ok none, Except.ok ()⟩ 0
      (by decide) (by decide)⟩

/-! ## Metadata cache + fetch (src/utils: `fetchAndCacheMetadata`)

The cached entry is `{data, timestamp}`; the store binding `env.SONG_CACHE`
may be absent; the upstream `fetch` either returns a 2xx response whose JSON
body is `body` (`none` models a JSON `null`), a non-2xx response, or throws.
Both `Date.now()` reads inside one invocation are modelled as the same
instant `now`. -/

instance instDecEqExcept {ε α : Type} [DecidableEq ε] [DecidableEq α] :
    DecidableEq (Except ε α) := fun x y =>
  match x, y with
  | .ok a, .ok b =>
    if h : a = b then isTrue (by rw [h]) else isFalse (by simp [h])
  | .ok _, .error _ => isFalse (by simp)
  | .error _, .ok _ => isFalse (by simp)
  | .error a, .error b =>
    if h : a = b then isTrue (by rw [h]) else isFalse (by simp [h])

/-- A cached metadata entry `{data, timestamp}` as written by
`fetchAndCacheMetadata` under key `metadata:{encodedPath}`. -/
structure CachedEntry (Data : Type) where
  data : Data
  timestamp : Int
deriving DecidableEq, Repr

/-- Outcome of the single upstream `fetch` call: a 2xx response with parsed
JSON `body`, a non-2xx response, or a thrown network exception. -/
inductive UpstreamOutcome (Data : Type)
  | ok (body : Option Data)
  | httpError (status : Nat)
  | netError
deriving DecidableEq, Repr

/-- The `env.SONG_CACHE` binding: absent, or present with the outcome of its
`get` (throwing or returning the entry / `null`) and of its `put`. -/
inductive StoreBehavior (Data : Type)
  | absent
  | present (getResult : Except Unit (Option (CachedEntry Data)))
            (putResult : Except Unit Unit)
deriving DecidableEq, Repr

/-- Observable outcome of one `fetchAndCacheMetadata` invocation: what the
caller sees (`.error` = an uncaught exception), whether the upstream fetch
was issued, and the entry (with `expirationTtl`) written to the cache. -/
structure FetchResult (Data : Type) where
  result : Except Unit (Option Data)
  fetchCalled : Bool
  written : Option (CachedEntry Data × Nat)
deriving DecidableEq, Repr

/-- The fetch-and-maybe-cache phase of `fetchAndCacheMetadata` (everything
from `const apiUrl = ...` on): wrapped in `try/catch`; a throwing `fetch`
(or a `put` throwing inside the `response.ok` branch) is caught and yields
`null`; a non-2xx response yields `null`; on 2xx the body is cached iff the
store is present and the body truthy, then returned. `put` is `none` when
the store binding is absent. -/
def fetchPhase {Data : Type} (now : Int) (put : Option (Except Unit Unit))
    (upstream : UpstreamOutcome Data) : FetchResult Data :=
  match upstream with
  | .netError => ⟨.ok none, true, none⟩
  | .httpError _ => ⟨.ok none, true, none⟩
  | .ok body =>
    match put, body with
    | some (.error _), some _ => ⟨.ok none, true, none⟩
    | some (.ok _), some d => ⟨.ok (some d), true, some (⟨d, now⟩, 86400)⟩
    | _, _ => ⟨.ok body, true, none⟩

/-- `fetchAndCacheMetadata(musicUrl, encodedPath, config, env)`.  The cache
read (`env.SONG_CACHE.get`) happens *before* the `try` block, so a throwing
`get` propagates to the caller.  A present entry is served iff
`cached.timestamp` is truthy and `now - cached.timestamp < 86400000`;
otherwise control falls through to the fetch phase. -/
def fetchAndCacheMetadata {Data : Type} (now : Int) (store : StoreBehavior Data)
    (upstream : UpstreamOutcome Data) : FetchResult Data :=
  match store with
  | .present (.error e) _ => ⟨.error e, false, none⟩
  | .present (.ok (some cached)) putR =>
    if cached.timestamp ≠ 0 ∧ now - cached.timestamp < 86400000 then
      ⟨.ok (some cached.data), false, none⟩
    else fetchPhase now (some putR) upstream
  | .present (.ok none) putR => fetchPhase now (some putR) upstream
  | .absent => fetchPhase now none upstream

theorem fetchPhase_fetchCalled {Data : Type} (now : Int)
    (put : Option (Except Unit Unit)) (upstream : UpstreamOutcome Data) :
    (fetchPhase now put upstream).fetchCalled = true := by
  unfold fetchPhase
  rcases upstream with body | st | _
  · rcases put with _ | pr
    · rfl
    · rcases pr with e | u <;> rcases body with _ | d <;> rfl
  · rfl
  · rfl

/-- C4: a metadata cache entry written with (positive) timestamp `T` is
served from cache — with no upstream call — when read at `T + 86_399_999`
ms, is treated as a miss (the upstream fetch is issued) when read at
`T + 86_400_001` ms, and in general the entry suppresses the upstream fetch
exactly when `now - T < 86_400_000` (strict). -/
theorem cache_freshness_boundary {Data : Type} (T : Int) (d : Data)
    (putR : Except Unit Unit) (upstream : UpstreamOutcome Data) (hT : 0 < T) :
    (fetchAndCacheMetadata (T + 86399999) (.present (.ok (some ⟨d, T⟩)) putR) upstream =
      ⟨.ok (some d), false, none⟩) ∧
    ((fetchAndCacheMetadata (T + 86400001) (.present (.ok (some ⟨d, T⟩)) putR)
        upstream).fetchCalled = true) ∧
    (∀ now : Int,
      (fetchAndCacheMetadata now (.present (.ok (some ⟨d, T⟩)) putR)
        upstream).fetchCalled = false ↔ now - T < 86400000) := by
  refine ⟨?_, ?_, ?_⟩
  · unfold fetchAndCacheMetadata
    dsimp only
    rw [if_pos ⟨by omega, by omega⟩]
  · unfold fetchAndCacheMetadata
    dsimp only
    rw [if_neg (by omega)]
    exact fetchPhase_fetchCalled _ _ _
  · intro now
    unfold fetchAndCacheMetadata
    dsimp only
    by_cases h : now - T < 86400000
    · rw [if_pos ⟨by omega, by simpa using h⟩]
      simpa using h
    · rw [if_neg (by omega)]
      rw [fetchPhase_fetchCalled]
      simpa using h

/-- Witness for `cache_freshness_boundary`: `T = 1000`, upstream throwing. -/
theorem cache_freshness_boundary_witness :
    (0 < (1000 : Int)) ∧
    ((fetchAndCacheMetadata (1000 + 86399999)
        (.present (.ok (some ⟨(7 : Nat), 1000⟩)) (.ok ())) .netError =
      ⟨.ok (some 7), false, none⟩) ∧
    ((fetchAndCacheMetadata (1000 + 86400001)
        (.present (.ok (some ⟨(7 : Nat), 1000⟩)) (.ok ())) .netError).fetchCalled = true) ∧
    (∀ now : Int,
      (fetchAndCacheMetadata now (.present (.ok (some ⟨(7 : Nat), 1000⟩)) (.ok ()))
        (UpstreamOutcome.netError)).fetchCalled = false ↔ now - 1000 < 86400000)) :=
  ⟨by decide, cache_freshness_boundary 1000 7 (.ok ()) .netError (by decide)⟩

/-- C5 counterexample: with a store whose cache read throws, the exception
propagates to the caller (the read sits outside the `try/catch`) and the
upstream fetch is never issued — the function does not fall through to the
network path and does not return `null`. -/
theorem fetch_store_read_throw_cex :
    fetchAndCacheMetadata 0
      (StoreBehavior.present (.error ()) (.ok ()) : StoreBehavior Nat) (.ok (some 1)) =
      ⟨.error (), false, none⟩ := rfl

/-- C5 (amended): provided the store's cache *read* does not throw,
`fetchAndCacheMetadata` never throws: on upstream non-2xx or network
exception it returns `null`; when the fetch succeeded with a truthy body the
caller gets the body if the cache write succeeded and `null` (the metadata
is discarded) if the cache write threw; an absent store is treated as "no
cache available" and falls through to the single upstream fetch.  (A
throwing cache *read*, by contrast, propagates: see the counterexample.) -/
theorem fetch_failure_semantics {Data : Type} (now : Int)
    (store : StoreBehavior Data) (upstream : UpstreamOutcome Data)
    (hread : ∀ e pr, store ≠ StoreBehavior.present (.error e) pr) :
    (∃ r, (fetchAndCacheMetadata now store upstream).result = .ok r) ∧
    ((fetchAndCacheMetadata now store upstream).fetchCalled = true →
      (upstream = .netError ∨ (∃ st, upstream = .httpError st)) →
      (fetchAndCacheMetadata now store upstream).result = .ok none) ∧
    (∀ d g putR, store = .present (.ok g) putR →
      (fetchAndCacheMetadata now store upstream).fetchCalled = true →
      upstream = .ok (some d) →
      (fetchAndCacheMetadata now store upstream).result =
        (match putR with
         | .error _ => .ok none
         | .ok _ => .ok (some d))) ∧
    (store = .absent →
      (fetchAndCacheMetadata now store upstream).fetchCalled = true ∧
      (fetchAndCacheMetadata now store upstream).result =
        (match upstream with
         | .ok body => .ok body
         | .httpError _ => .ok none
         | .netError => .ok none)) := by
  have hphase : ∀ (put : Option (Except Unit Unit)),
      ((upstream = .netError ∨ (∃ st, upstream = .httpError st)) →
        (fetchPhase now put upstream).result = .ok none) ∧
      (∃ r, (fetchPhase now put upstream).result = .ok r) := by
    intro put
    constructor
    · rintro (rfl | ⟨st, rfl⟩) <;> rfl
    · unfold fetchPhase
      rcases upstream with body | st | _
      · rcases put with _ | pr
        · exact ⟨body, rfl⟩
        · rcases pr with e | u <;> rcases body with _ | d
          · exact ⟨none, rfl⟩
          · exact ⟨none, rfl⟩
          · exact ⟨none, rfl⟩
          · exact ⟨some d, rfl⟩
      · exact ⟨none, rfl⟩
      · exact ⟨none, rfl⟩
  have hputcase : ∀ (putR : Except Unit Unit) (d : Data), upstream = .ok (some d) →
      (fetchPhase now (some putR) upstream).result =
        (match putR with
         | .error _ => .ok none
         | .ok _ => .ok (some d)) := by
    rintro putR d rfl
    rcases putR with e | u <;> rfl
  rcases store with _ | ⟨g, putR⟩
  · refine ⟨(hphase none).2, fun _ => (hphase none).1, ?_, ?_⟩
    · rintro d g putR h
      exact absurd h (by simp)
    · intro _
      refine ⟨fetchPhase_fetchCalled _ _ _, ?_⟩
      show (fetchPhase now none upstream).result = _
      rcases upstream with body | st | _
      · rfl
      · rfl
      · rfl
  · rcases g with e | g
    · exact absurd rfl (hread e putR)
    · rcases g with _ | cached
      · refine ⟨(hphase (some putR)).2, fun _ => (hphase (some putR)).1, ?_, by simp⟩
        rintro d g pr h hf hu
        injection h with h1 h2
        subst h2
        exact hputcase putR d hu
      · unfold fetchAndCacheMetadata
        dsimp only
        by_cases hfresh : cached.timestamp ≠ 0 ∧ now - cached.timestamp < 86400000
        · rw [if_pos hfresh]
          refine ⟨⟨some cached.data, rfl⟩, ?_, ?_, by simp⟩
          · intro hfc
            exact absurd hfc (by simp)
          · intro d g pr h hfc
            exact absurd hfc (by simp)
        · rw [if_neg hfresh]
          refine ⟨(hphase (some putR)).2, fun _ => (hphase (some putR)).1, ?_, by simp⟩
          rintro d g pr h hf hu
          injection h with h1 h2
          subst h2
          exact hputcase putR d hu

/-- Witness for `fetch_failure_semantics`: store present with a failing
write, upstream 2xx with a truthy body. -/
theorem fetch_failure_semantics_witness :
    (∀ e pr, ((StoreBehavior.present (.ok none) (.error ()) : StoreBehavior Nat)) ≠
      StoreBehavior.present (.error e) pr) ∧
    ((∃ r, (fetchAndCacheMetadata 0 ((StoreBehavior.present (.ok none) (.error ()) : StoreBehavior Nat))
        (.ok (some 1))).result = .ok r) ∧
    ((fetchAndCacheMetadata 0 ((StoreBehavior.present (.ok none) (.error ()) : StoreBehavior Nat))
        (.ok (some 1))).fetchCalled = true →
      ((UpstreamOutcome.ok (some 1) : UpstreamOutcome Nat) = .netError ∨
        (∃ st, (UpstreamOutcome.ok (some 1) : UpstreamOutcome Nat) = .httpError st)) →
      (fetchAndCacheMetadata 0 ((StoreBehavior.present (.ok none) (.error ()) : StoreBehavior Nat))
        (.ok (some 1))).result = .ok none) ∧
    (∀ d g putR, ((StoreBehavior.present (.ok none) (.error ()) : StoreBehavior Nat)) =
        StoreBehavior.present (.ok g) putR →
      (fetchAndCacheMetadata 0 ((StoreBehavior.present (.ok none) (.error ()) : StoreBehavior Nat))
        (.ok (some 1))).fetchCalled = true →
      (UpstreamOutcome.ok (some 1) : UpstreamOutcome Nat) = .ok (some d) →
      (fetchAndCacheMetadata 0 ((StoreBehavior.present (.ok none) (.error ()) : StoreBehavior Nat))
        (.ok (some 1))).result =
        (match putR with
         | .error _ => .ok none
         | .ok _ => .ok (some d))) ∧
    (((StoreBehavior.present (.ok none) (.error ()) : StoreBehavior Nat)) = .absent →
      (fetchAndCacheMetadata 0 ((StoreBehavior.present (.ok none) (.error ()) : StoreBehavior Nat))
        (.ok (some 1))).fetchCalled = true ∧
      (fetchAndCacheMetadata 0 ((StoreBehavior.present (.ok none) (.error ()) : StoreBehavior Nat))
        (.ok (some 1))).result =
        (match (UpstreamOutcome.ok (some 1) : UpstreamOutcome Nat) with
         | .ok body => .ok body
         | .httpError _ => .ok none
         | .netError => .ok none))) :=
  ⟨by intro e pr h; injection h with h1 h2; exact Except.noConfusion h1,
    fetch_failure_semantics 0 (StoreBehavior.present (.ok none) (.error ())) (.ok (some 1))
      (by intro e pr h; injection h with h1 h2; exact Except.noConfusion h1)⟩

/-! ## Bot detector (`isSocialMediaBot`) -/

/-- JS `String.prototype.toLowerCase` (ASCII portion — all bot signatures
and the identity strings of interest are ASCII). -/
def strToLower (s : String) : String := ⟨s.data.map Char.toLower⟩

/-- `a == b` prefix test on character lists. -/
def isPrefixOfB : List Char → List Char → Bool
  | [], _ => true
  | _ :: _, [] => false
  | a :: as, b :: bs => a == b && isPrefixOfB as bs

/-- JS `haystack.includes(needle)`: some suffix of the haystack starts with
the needle. -/
def containsSub (needle : List Char) : List Char → Bool
  | [] => needle.isEmpty
  | c :: rest => isPrefixOfB needle (c :: rest) || containsSub needle rest

/-- The fixed `botPatterns` allow-list of the source, in source order. -/
def botPatterns : List String :=
  ["facebookexternalhit", "WhatsApp", "Twitterbot", "TelegramBot",
   "Slackbot", "LinkedInBot", "Discordbot", "SkypeUriPreview",
   "Snapchat", "Pinterest", "Googlebot", "bingbot"]

/-- `isSocialMediaBot(userAgent)`: falsy (absent/empty) user agent is not a
bot; otherwise case-insensitive substring match against `botPatterns`. -/
def isSocialMediaBot (userAgent : String) : Bool :=
  if userAgent = "" then false
  else
    let lowerUserAgent := strToLower userAgent
    botPatterns.any fun pat => containsSub (strToLower pat).data lowerUserAgent.data

/-- C9: bot classification is the indicated pure function of the identity
string: `isSocialMediaBot ua` is `true` iff `ua` case-insensitively contains
one of the twelve fixed signatures; the empty (or absent, which the caller
maps to empty) identity string classifies as non-bot;
`"facebookexternalhit/1.1"` classifies as bot and
`"Mozilla/5.0 (iPhone...)"` as non-bot. -/
theorem bot_classification (ua : String) :
    (isSocialMediaBot ua = true ↔
      ∃ pat ∈ botPatterns,
        containsSub (strToLower pat).data (strToLower ua).data = true) ∧
    isSocialMediaBot "" = false ∧
    isSocialMediaBot "facebookexternalhit/1.1" = true ∧
    isSocialMediaBot "Mozilla/5.0 (iPhone...)" = false := by
  refine ⟨?_, by decide, by decide, by decide⟩
  unfold isSocialMediaBot
  by_cases h : ua = ""
  · rw [if_pos h]
    subst h
    constructor
    · intro hh; cases hh
    · intro hh
      rw [← List.any_eq_true] at hh
      exact absurd hh (by decide)
  · rw [if_neg h]
    exact List.any_eq_true

/-! ## Share-link decoder (`handleShareLink` decode portion,
`reconstructMusicUrl`) and URL-safe Base64

The platform's `atob` is modelled as forgiving-base64 over character lists
(strip up to two trailing `=` when the length is a multiple of 4, reject a
length ≡ 1 mod 4, reject characters outside the alphabet); `btoa`-style
encoding is bytes → sextets → alphabet characters. -/

/-- Base64 bit-packing: three 8-bit bytes become four 6-bit values; a final
chunk of 1 or 2 bytes becomes 2 or 3 sextets (low bits zero-padded). -/
def toSextets : List Nat → List Nat
  | [] => []
  | [a] => [a / 4, a % 4 * 16]
  | [a, b] => [a / 4, a % 4 * 16 + b / 16, b % 16 * 4]
  | a :: b :: c :: rest =>
    a / 4 :: (a % 4 * 16 + b / 16) :: (b % 16 * 4 + c / 64) :: c % 64 :: toSextets rest

/-- Inverse bit-packing: four sextets become three bytes; a trailing chunk
of 2 or 3 sextets yields 1 or 2 bytes, leftover bits discarded
(forgiving-base64). -/
def fromSextets : List Nat → List Nat
  | [] => []
  | [_] => []
  | [a, b] => [a * 4 + b / 16]
  | [a, b, c] => [a * 4 + b / 16, b % 16 * 16 + c / 4]
  | a :: b :: c :: d :: rest =>
    (a * 4 + b / 16) :: (b % 16 * 16 + c / 4) :: (c % 4 * 64 + d) :: fromSextets rest

theorem fromSextets_toSextets : ∀ (bs : List Nat), (∀ b ∈ bs, b < 256) →
    fromSextets (toSextets bs) = bs
  | [], _ => rfl
  | [a], h => by
    have ha : a < 256 := h a (by simp)
    simp only [toSextets, fromSextets, List.cons.injEq, and_true]
    omega
  | [a, b], h => by
    have ha : a < 256 := h a (by simp)
    have hb : b < 256 := h b (by simp)
    simp only [toSextets, fromSextets, List.cons.injEq, and_true]
    omega
  | a :: b :: c :: rest, h => by
    have ha : a < 256 := h a (by simp)
    have hb : b < 256 := h b (by simp)
    have hc : c < 256 := h c (by simp)
    have ih := fromSextets_toSextets rest (fun x hx => h x (by simp [hx]))
    simp only [toSextets, fromSextets, List.cons.injEq]
    exact ⟨by omega, by omega, by omega, ih⟩

theorem toSextets_lt : ∀ (bs : List Nat), (∀ b ∈ bs, b < 256) →
    ∀ s ∈ toSextets bs, s < 64
  | [], _ => by simp [toSextets]
  | [a], h => by
    have ha : a < 256 := h a (by simp)
    simp only [toSextets, List.mem_cons, List.not_mem_nil, or_false]
    rintro s (rfl | rfl) <;> omega
  | [a, b], h => by
    have ha : a < 256 := h a (by simp)
    have hb : b < 256 := h b (by simp)
    simp only [toSextets, List.mem_cons, List.not_mem_nil, or_false]
    rintro s (rfl | rfl | rfl) <;> omega
  | a :: b :: c :: rest, h => by
    have ha : a < 256 := h a (by simp)
    have hb : b < 256 := h b (by simp)
    have hc : c < 256 := h c (by simp)
    have ih := toSextets_lt rest (fun x hx => h x (by simp [hx]))
    simp only [toSextets, List.mem_cons]
    rintro s (rfl | rfl | rfl | rfl | hs)
    · omega
    · omega
    · omega
    · omega
    · exact ih s hs

theorem toSextets_length_mod : ∀ (bs : List Nat), (toSextets bs).length % 4 ≠ 1
  | [] => by simp [toSextets]
  | [a] => by simp [toSextets]
  | [a, b] => by simp [toSextets]
  | a :: b :: c :: rest => by
    have ih := toSextets_length_mod rest
    simp only [toSextets, List.length_cons]
    omega

end Unitune

namespace Unitune

/-- The standard Base64 alphabet. -/
def b64Chars : List Char :=
  "ABCDEFGHIJKLMNOPQRSTUVWXYZabcdefghijklmnopqrstuvwxyz0123456789+/".data

def b64Char (n : Nat) : Char := b64Chars.getD n '='

def b64ValAux : List Char → Nat → Char → Option Nat
  | [], _, _ => none
  | x :: xs, i, c => if c = x then some i else b64ValAux xs (i + 1) c

def b64Val (c : Char) : Option Nat := b64ValAux b64Chars 0 c

theorem b64Val_b64Char : ∀ n, n < 64 → b64Val (b64Char n) = some n := by decide

theorem b64Char_ne_eq : ∀ n, n < 64 → b64Char n ≠ '=' := by decide

def decodeVals : List Char → Option (List Nat)
  | [] => some []
  | c :: rest =>
    match b64Val c, decodeVals rest with
    | some v, some vs => some (v :: vs)
    | _, _ => none

theorem decodeVals_map_b64Char : ∀ (sx : List Nat), (∀ s ∈ sx, s < 64) →
    decodeVals (sx.map b64Char) = some sx
  | [], _ => rfl
  | s :: rest, h => by
    have hs := h s (by simp)
    have ih := decodeVals_map_b64Char rest (fun x hx => h x (by simp [hx]))
    simp only [List.map_cons, decodeVals]
    rw [b64Val_b64Char s hs, ih]

/-- Strip one or two trailing `=` characters (forgiving-base64 step 2). -/
def dropBase64Padding (cs : List Char) : List Char :=
  match cs.reverse with
  | [] => cs
  | c :: rest =>
    if c = '=' then
      match rest with
      | [] => rest.reverse
      | c2 :: rest2 => if c2 = '=' then rest2.reverse else rest.reverse
    else cs

/-- The platform's `atob` (forgiving-base64 decode, modelled on character
lists; ASCII-whitespace removal is omitted — no input of interest contains
whitespace): when the length is a multiple of 4 strip up to two trailing
`=`; a remaining length ≡ 1 mod 4 or any character outside the alphabet
(including a stray `=`) throws, modelled as `none`. -/
def atobChars (cs : List Char) : Option (List Nat) :=
  let stripped := if cs.length % 4 = 0 then dropBase64Padding cs else cs
  if stripped.length % 4 = 1 then none
  else (decodeVals stripped).map fromSextets

theorem dropBase64Padding_two (cs : List Char) :
    dropBase64Padding (cs ++ ['=', '=']) = cs := by
  unfold dropBase64Padding
  rw [show (cs ++ ['=', '=']).reverse = '=' :: '=' :: cs.reverse by simp]
  simp

theorem dropBase64Padding_one (cs : List Char) (h : ∀ c ∈ cs, c ≠ '=') :
    dropBase64Padding (cs ++ ['=']) = cs := by
  unfold dropBase64Padding
  rw [show (cs ++ ['=']).reverse = '=' :: cs.reverse by simp]
  dsimp only
  rw [if_pos rfl]
  match hrev : cs.reverse with
  | [] => simp [← hrev]
  | c2 :: rest2 =>
    have hc2 : c2 ∈ cs := by rw [← List.mem_reverse, hrev]; simp
    dsimp only
    rw [if_neg (h c2 hc2)]
    rw [← hrev, List.reverse_reverse]

theorem dropBase64Padding_clean (cs : List Char) (h : ∀ c ∈ cs, c ≠ '=') :
    dropBase64Padding cs = cs := by
  unfold dropBase64Padding
  match hrev : cs.reverse with
  | [] => rfl
  | c :: rest =>
    have hc : c ∈ cs := by rw [← List.mem_reverse, hrev]; simp
    dsimp only
    rw [if_neg (h c hc)]

/-- `handleShareLink`'s padding loop:
`while (padded.length % 4 !== 0) padded += '='` (closed form). -/
def padBase64 (cs : List Char) : List Char :=
  cs ++ List.replicate ((4 - cs.length % 4) % 4) '='

theorem atobChars_clean (cs : List Char) (h : ∀ c ∈ cs, c ≠ '=')
    (hlen : cs.length % 4 ≠ 1) :
    atobChars cs = (decodeVals cs).map fromSextets := by
  unfold atobChars
  by_cases h0 : cs.length % 4 = 0
  · rw [if_pos h0, dropBase64Padding_clean cs h, if_neg hlen]
  · rw [if_neg h0, if_neg hlen]

theorem atobChars_two_pad (cs : List Char) (h0 : (cs.length + 2) % 4 = 0)
    (hlen : cs.length % 4 ≠ 1) :
    atobChars (cs ++ ['=', '=']) = (decodeVals cs).map fromSextets := by
  unfold atobChars
  rw [show (cs ++ ['=', '=']).length = cs.length + 2 by simp]
  rw [if_pos h0, dropBase64Padding_two, if_neg hlen]

theorem atobChars_one_pad (cs : List Char) (h : ∀ c ∈ cs, c ≠ '=')
    (h0 : (cs.length + 1) % 4 = 0) (hlen : cs.length % 4 ≠ 1) :
    atobChars (cs ++ ['=']) = (decodeVals cs).map fromSextets := by
  unfold atobChars
  rw [show (cs ++ ['=']).length = cs.length + 1 by simp]
  rw [if_pos h0, dropBase64Padding_one cs h, if_neg hlen]

theorem atobChars_pad_map (sx : List Nat) (hlt : ∀ s ∈ sx, s < 64)
    (hlen : sx.length % 4 ≠ 1) :
    atobChars (padBase64 (sx.map b64Char)) = some (fromSextets sx) := by
  have hne : ∀ c ∈ sx.map b64Char, c ≠ '=' := by
    intro c hc
    rw [List.mem_map] at hc
    obtain ⟨s, hs, rfl⟩ := hc
    exact b64Char_ne_eq s (hlt s hs)
  have hmap : (sx.map b64Char).length = sx.length := List.length_map _ _
  have hdec : decodeVals (sx.map b64Char) = some sx := decodeVals_map_b64Char sx hlt
  have h4 : sx.length % 4 = 0 ∨ sx.length % 4 = 2 ∨ sx.length % 4 = 3 := by omega
  unfold padBase64
  rcases h4 with h | h | h
  · rw [show ((4 - (sx.map b64Char).length % 4) % 4) = 0 by rw [hmap]; omega]
    rw [show List.replicate 0 '=' = ([] : List Char) from rfl, List.append_nil]
    rw [atobChars_clean _ hne (by omega), hdec]
    rfl
  · rw [show ((4 - (sx.map b64Char).length % 4) % 4) = 2 by rw [hmap]; omega]
    rw [show List.replicate 2 '=' = ['=', '='] from rfl]
    rw [atobChars_two_pad _ (by rw [hmap]; omega) (by rw [hmap]; omega), hdec]
    rfl
  · rw [show ((4 - (sx.map b64Char).length % 4) % 4) = 1 by rw [hmap]; omega]
    rw [show List.replicate 1 '=' = ['='] from rfl]
    rw [atobChars_one_pad _ hne (by rw [hmap]; omega) (by rw [hmap]; omega), hdec]
    rfl

def urlSafeToStdChar (c : Char) : Char :=
  if c = '-' then '+' else if c = '_' then '/' else c

def stdToUrlSafeChar (c : Char) : Char :=
  if c = '+' then '-' else if c = '/' then '_' else c

theorem urlSafe_std_b64Char : ∀ n, n < 64 →
    urlSafeToStdChar (stdToUrlSafeChar (b64Char n)) = b64Char n := by decide

theorem translate_pad (sx : List Nat) (hlt : ∀ s ∈ sx, s < 64) :
    (padBase64 ((sx.map b64Char).map stdToUrlSafeChar)).map urlSafeToStdChar =
      padBase64 (sx.map b64Char) := by
  unfold padBase64
  rw [List.map_append, List.length_map, List.map_replicate,
      show urlSafeToStdChar '=' = '=' by decide]
  congr 1
  rw [List.map_map, List.map_map]
  refine List.map_congr_left ?_
  intro s hs
  exact urlSafe_std_b64Char s (hlt s hs)

theorem decode_chain (bytes : List Nat) (hb : ∀ b ∈ bytes, b < 256) :
    atobChars ((padBase64 (((toSextets bytes).map b64Char).map
      stdToUrlSafeChar)).map urlSafeToStdChar) = some bytes := by
  rw [translate_pad _ (toSextets_lt bytes hb)]
  rw [atobChars_pad_map _ (toSextets_lt bytes hb) (toSextets_length_mod bytes)]
  rw [fromSextets_toSextets bytes hb]

/-- JS `Array.prototype.join(':')`, as used for `parts.slice(2).join(':')`. -/
def joinColon : List (List Char) → List Char
  | [] => []
  | [x] => x
  | x :: y :: rest => x ++ ':' :: joinColon (y :: rest)

theorem joinColon_splitOnChar : ∀ (l : List Char),
    joinColon (splitOnChar ':' l) = l
  | [] => rfl
  | c :: rest => by
    have ih := joinColon_splitOnChar rest
    simp only [splitOnChar]
    match hr : splitOnChar ':' rest with
    | [] => exact absurd hr (splitOnChar_ne_nil ':' rest)
    | h :: t =>
      rw [hr] at ih
      dsimp only
      by_cases hc : c = ':'
      · rw [if_pos hc, hc]
        cases t with
        | nil => simpa [joinColon] using ih
        | cons y t2 => simpa [joinColon] using ih
      · rw [if_neg hc]
        cases t with
        | nil =>
          simp only [joinColon] at ih ⊢
          rw [ih]
        | cons y t2 =>
          simp only [joinColon] at ih ⊢
          simp [ih]

theorem splitOnChar_append (pre rest : List Char) (h : ∀ c ∈ pre, c ≠ ':') :
    splitOnChar ':' (pre ++ ':' :: rest) = pre :: splitOnChar ':' rest := by
  induction pre with
  | nil =>
    simp only [List.nil_append, splitOnChar]
    match hr : splitOnChar ':' rest with
    | [] => exact absurd hr (splitOnChar_ne_nil ':' rest)
    | h2 :: t => simp
  | cons c pre ih =>
    have hc : c ≠ ':' := h c (by simp)
    have ih2 := ih (fun x hx => h x (by simp [hx]))
    simp only [List.cons_append, splitOnChar]
    rw [List.append_eq, ih2]
    dsimp only
    rw [if_neg hc]

theorem isPrefixOfB_iff : ∀ (n hay : List Char), isPrefixOfB n hay = true ↔ n <+: hay
  | [], hay => by simp [isPrefixOfB]
  | a :: as, [] => by simp [isPrefixOfB]
  | a :: as, b :: bs => by
    simp only [isPrefixOfB, Bool.and_eq_true, beq_iff_eq]
    rw [isPrefixOfB_iff as bs, List.cons_prefix_cons]

/-- The own keys of the `urls` object literal in `reconstructMusicUrl`. -/
def supportedKeys : List String :=
  ["spotify", "tidal", "applemusic", "youtubemusic", "youtube", "deezer", "amazonmusic"]

/-- The all-lowercase property names an object literal inherits from
`Object.prototype` whose lookup yields a *truthy* value: `constructor` (the
`Object` function) and `__proto__` (returns `Object.prototype` via its
accessor).  Every other inherited name (`hasOwnProperty`, `toString`,
`valueOf`, `__defineGetter__`, ...) contains an uppercase letter and can
never equal `platform.toLowerCase()`. -/
def protoChainKeys : List String := ["constructor", "__proto__"]

/-- A truthy result of the JS property read `urls[key]`: either one of the
object's own template strings, or a truthy non-string value inherited from
the prototype chain (`constructor` → the `Object` function, `__proto__` →
`Object.prototype`), tagged here by the key that reached it. -/
inductive UrlLookup where
  | str (u : String)
  | protoValue (key : String)
deriving DecidableEq, Repr

/-- `reconstructMusicUrl(platform, type, id)` from url_validator:
`return urls[platform.toLowerCase()] || null` on an object literal.  The
property read walks the prototype chain, so besides the seven own template
keys, the all-lowercase inherited names `constructor` and `__proto__` yield
truthy non-string values that survive `|| null`; every other key reads
`undefined`, which `|| null` turns into `null` (`none`). -/
def reconstructMusicUrl (platform ty id : String) : Option UrlLookup :=
  let key := strToLower platform
  if key = "spotify" then some (.str ("https://open.spotify.com/" ++ ty ++ "/" ++ id))
  else if key = "tidal" then some (.str ("https://tidal.com/browse/" ++ ty ++ "/" ++ id))
  else if key = "applemusic" then some (.str ("https://music.apple.com/us/song/" ++ id))
  else if key = "youtubemusic" then some (.str ("https://music.youtube.com/watch?v=" ++ id))
  else if key = "youtube" then some (.str ("https://youtube.com/watch?v=" ++ id))
  else if key = "deezer" then some (.str ("https://www.deezer.com/" ++ ty ++ "/" ++ id))
  else if key = "amazonmusic" then some (.str ("https://music.amazon.com/tracks/" ++ id))
  else if key = "constructor" then some (.protoValue "constructor")
  else if key = "__proto__" then some (.protoValue "__proto__")
  else none

theorem reconstruct_isSome_iff (p t i : String) :
    (reconstructMusicUrl p t i).isSome = true ↔
      (strToLower p ∈ supportedKeys ∨ strToLower p ∈ protoChainKeys) := by
  unfold reconstructMusicUrl supportedKeys protoChainKeys
  dsimp only
  split_ifs with h1 h2 h3 h4 h5 h6 h7 h8 h9 <;>
    simp_all

/-- Outcome of `handleShareLink`'s decode section: `decodeError` = `atob`
threw (caught, 400 "Invalid share link format."); `unsupported` = triple
parsed but `reconstructMusicUrl` returned null (400 "Unsupported music
platform."); `noUrl` = `musicUrl` was never assigned (400 "Invalid share
link."); `url` = the lookup produced a truthy `musicUrl` — a template
string, or an inherited `Object.prototype` value for the platforms
`constructor`/`__proto__`, with which the handler proceeds all the same
(`if (!musicUrl)` only tests truthiness). -/
inductive DecodeOutcome where
  | decodeError
  | unsupported (platform : String)
  | noUrl
  | url (musicUrl : UrlLookup)
deriving DecidableEq, Repr

def DecodeOutcome.musicUrl : DecodeOutcome → Option UrlLookup
  | .url u => some u
  | _ => none

/-- Modelled from the spec: the share-link *encoder* is not part of this
repository (only the decoder is); per §4.3 and §8 a share identifier is the
URL-safe Base64 encoding of the string `platform:type:id` — standard Base64
with `+`,`/` replaced by `-`,`_`, emitted unpadded (the decoder re-pads). -/
def encodeShareId (platform ty id : String) : String :=
  ⟨((toSextets ((platform ++ ":" ++ ty ++ ":" ++ id).data.map
      Char.toNat)).map b64Char).map stdToUrlSafeChar⟩

/-- The decode section of `handleShareLink`: pad to a multiple of 4 with
`=`, translate the URL-safe alphabet back (`-`→`+`, `_`→`/`), `atob`; if the
decoded string contains a colon and does not start with `http`, split on all
colons, and when there are at least 3 parts take `parts[0]`, `parts[1]`, and
`parts.slice(2).join(':')` and reconstruct the music URL. -/
def decodeShare (pathAfterS : String) : DecodeOutcome :=
  let padded := padBase64 pathAfterS.data
  match atobChars (padded.map urlSafeToStdChar) with
  | none => .decodeError
  | some bytes =>
    let decoded : List Char := bytes.map Char.ofNat
    if decoded.contains ':' && ! isPrefixOfB "http".data decoded then
      match splitOnChar ':' decoded with
      | pp :: tt :: r1 :: rs =>
        let platform : String := ⟨pp⟩
        let ty : String := ⟨tt⟩
        let ident : String := ⟨joinColon (r1 :: rs)⟩
        match reconstructMusicUrl platform ty ident with
        | some u => .url u
        | none => .unsupported platform
      | _ => .noUrl
    else .noUrl

/-- HTTP status of `handleShareLink`'s response as a function of the decode
outcome and metadata availability: every decode failure is 400, a metadata
fetch failure is 404, and a successful render is 200 (the renderers'
internal 500 path is outside this model's scope).  A truthy non-string
lookup (`constructor`/`__proto__`) passes the `if (!musicUrl)` test like a
URL does and proceeds to the metadata fetch (404/200), never the 400
branch. -/
def shareStatus (pathAfterS : String) (metadataOk : Bool) : Nat :=
  match decodeShare pathAfterS with
  | .decodeError => 400
  | .unsupported _ => 400
  | .noUrl => 400
  | .url _ => if metadataOk then 200 else 404

/-- A platform whose lowercasing is one of the seven supported keys or one
of the truthy prototype-chain names cannot make the decoded string start
with `http`. -/
theorem supported_no_http (p : String) (suffix : List Char)
    (hk : strToLower p ∈ supportedKeys ∨ strToLower p ∈ protoChainKeys)
    (hpre : isPrefixOfB ("http".data) (p.data ++ suffix) = true) : False := by
  rw [isPrefixOfB_iff] at hpre
  obtain ⟨tl, htl⟩ := hpre
  have hmapdata : (strToLower p).data = p.data.map Char.toLower := rfl
  simp only [supportedKeys, protoChainKeys, List.mem_cons, List.not_mem_nil,
    or_false] at hk
  have key : ∀ ks : String, strToLower p = ks → 4 ≤ ks.data.length →
      "http".data = ks.data.take 4 := by
    intro ks hks hlen4
    have hplen : p.data.length = ks.data.length := by
      have h0 := congrArg (fun s : String => s.data.length) hks
      simpa [hmapdata] using h0
    have htake : "http".data = p.data.take 4 := by
      have h1 : ("http".data ++ tl).take 4 = "http".data :=
        List.take_left' (by decide)
      rw [htl, List.take_append_of_le_length (by omega)] at h1
      exact h1.symm
    have h2 : "http".data = (p.data.map Char.toLower).take 4 := by
      have h3 : "http".data.map Char.toLower = "http".data := by decide
      calc "http".data = "http".data.map Char.toLower := h3.symm
        _ = (p.data.take 4).map Char.toLower := by rw [← htake]
        _ = (p.data.map Char.toLower).take 4 := List.map_take _ _ _
    rw [h2, ← hmapdata, hks]
  rcases hk with (hk | hk | hk | hk | hk | hk | hk) | (hk | hk) <;>
    exact absurd (key _ hk (by decide)) (by decide)

/-- The three classes of `urls[key] || null` outcomes: an own template
string for the seven supported keys, the truthy inherited
`Object.prototype` value for `constructor`/`__proto__`, and `null`
otherwise. -/
theorem reconstruct_cases (p t i : String) :
    (strToLower p ∈ supportedKeys →
      ∃ u, reconstructMusicUrl p t i = some (.str u)) ∧
    (strToLower p ∈ protoChainKeys →
      reconstructMusicUrl p t i = some (.protoValue (strToLower p))) ∧
    (strToLower p ∉ supportedKeys → strToLower p ∉ protoChainKeys →
      reconstructMusicUrl p t i = none) := by
  refine ⟨?_, ?_, ?_⟩
  · intro hmem
    simp only [supportedKeys, List.mem_cons, List.not_mem_nil, or_false] at hmem
    unfold reconstructMusicUrl
    dsimp only
    rcases hmem with h | h | h | h | h | h | h <;> rw [h] <;> simp +decide
  · intro hmem
    simp only [protoChainKeys, List.mem_cons, List.not_mem_nil, or_false] at hmem
    unfold reconstructMusicUrl
    dsimp only
    rcases hmem with h | h <;> rw [h] <;> simp +decide
  · intro hns hnp
    unfold reconstructMusicUrl
    dsimp only
    split_ifs with h1 h2 h3 h4 h5 h6 h7 h8 h9
    · exact absurd (by rw [h1]; decide) hns
    · exact absurd (by rw [h2]; decide) hns
    · exact absurd (by rw [h3]; decide) hns
    · exact absurd (by rw [h4]; decide) hns
    · exact absurd (by rw [h5]; decide) hns
    · exact absurd (by rw [h6]; decide) hns
    · exact absurd (by rw [h7]; decide) hns
    · exact absurd (by rw [h8]; decide) hnp
    · exact absurd (by rw [h9]; decide) hnp
    · rfl

/-- C6 (amended): for every colon-free platform `p`, every colon-free type
`t`, and every id `i` (which may contain colons), with all characters in the
`btoa` byte range, decoding the URL-safe Base64 encoding of `p:t:i` yields
exactly the value of the platform's URL-table lookup
(`reconstructMusicUrl p t i`): the canonical URL produced by the platform's
URL template when `p` is supported (case-insensitively one of the seven
platform names); null when `p` is unsupported — unless `p` lowercases to an
`Object.prototype` property name (`constructor` or `__proto__`), in which
case the lookup walks the prototype chain and the decode yields that truthy
inherited non-URL value, not null. -/
theorem decode_encode_round_trip (p t i : String)
    (hbytes : ∀ c ∈ (p ++ ":" ++ t ++ ":" ++ i).data, c.toNat < 256)
    (hpc : ∀ c ∈ p.data, c ≠ ':') (htc : ∀ c ∈ t.data, c ≠ ':') :
    (decodeShare (encodeShareId p t i)).musicUrl = reconstructMusicUrl p t i ∧
    (strToLower p ∈ supportedKeys →
      ∃ u, reconstructMusicUrl p t i = some (.str u)) ∧
    (strToLower p ∈ protoChainKeys →
      reconstructMusicUrl p t i = some (.protoValue (strToLower p))) ∧
    (strToLower p ∉ supportedKeys → strToLower p ∉ protoChainKeys →
      reconstructMusicUrl p t i = none) := by
  refine ⟨?_, (reconstruct_cases p t i).1, (reconstruct_cases p t i).2.1,
    (reconstruct_cases p t i).2.2⟩
  have hfull : (p ++ ":" ++ t ++ ":" ++ i).data =
      p.data ++ ':' :: (t.data ++ ':' :: i.data) := by
    simp [String.data_append]
  have hb : ∀ b ∈ (p ++ ":" ++ t ++ ":" ++ i).data.map Char.toNat, b < 256 := by
    intro b hbm
    rw [List.mem_map] at hbm
    obtain ⟨c, hc, rfl⟩ := hbm
    exact hbytes c hc
  have hchain := decode_chain ((p ++ ":" ++ t ++ ":" ++ i).data.map Char.toNat) hb
  have hcontains : (p ++ ":" ++ t ++ ":" ++ i).data.contains ':' = true := by
    have hm : ':' ∈ (p ++ ":" ++ t ++ ":" ++ i).data := by
      rw [hfull]; simp
    simp only [List.contains, List.elem_iff]
    exact hm
  have hdecoded : ((p ++ ":" ++ t ++ ":" ++ i).data.map Char.toNat).map Char.ofNat =
      (p ++ ":" ++ t ++ ":" ++ i).data := by
    rw [List.map_map]
    have hcg : List.map (Char.ofNat ∘ Char.toNat) (p ++ ":" ++ t ++ ":" ++ i).data =
        List.map id (p ++ ":" ++ t ++ ":" ++ i).data :=
      List.map_congr_left (fun c _ => Char.ofNat_toNat c)
    rw [hcg, List.map_id]
  unfold decodeShare encodeShareId
  dsimp only
  rw [hchain]
  dsimp only
  rw [hdecoded]
  cases hval : ((p ++ ":" ++ t ++ ":" ++ i).data.contains ':' &&
      ! isPrefixOfB "http".data (p ++ ":" ++ t ++ ":" ++ i).data) with
  | false =>
    rw [if_neg Bool.false_ne_true]
    rcases hrec : reconstructMusicUrl p t i with _ | u
    · rfl
    · exfalso
      have hk := (reconstruct_isSome_iff p t i).mp (by rw [hrec]; rfl)
      rw [hcontains, Bool.true_and] at hval
      have hpre : isPrefixOfB "http".data (p ++ ":" ++ t ++ ":" ++ i).data = true := by
        cases hx : isPrefixOfB "http".data (p ++ ":" ++ t ++ ":" ++ i).data with
        | true => rfl
        | false => rw [hx] at hval; simp at hval
      rw [hfull] at hpre
      exact supported_no_http p _ hk hpre
  | true =>
    rw [if_pos rfl]
    rw [hfull]
    rw [splitOnChar_append p.data _ hpc, splitOnChar_append t.data _ htc]
    obtain ⟨r1, rs, hsp⟩ : ∃ r1 rs, splitOnChar ':' i.data = r1 :: rs := by
      cases hx : splitOnChar ':' i.data with
      | nil => exact absurd hx (splitOnChar_ne_nil ':' i.data)
      | cons a b => exact ⟨a, b, rfl⟩
    rw [hsp]
    dsimp only
    have hjoin : joinColon (r1 :: rs) = i.data := by
      rw [← hsp, joinColon_splitOnChar]
    rw [hjoin]
    show DecodeOutcome.musicUrl
        (match reconstructMusicUrl p t i with
         | some u => .url u
         | none => .unsupported p) = reconstructMusicUrl p t i
    rcases hrec : reconstructMusicUrl p t i with _ | u <;> rfl

/-- C6 counterexample: the round trip fails for a type containing a colon
(`spotify`, type `a:b`, id `c`): the decoder splits on the first two colons,
so it reads type `a` and id `b:c` and produces
`https://open.spotify.com/a/b:c`, while the template applied to the original
triple gives `https://open.spotify.com/a:b/c`; for the unsupported platform
`spotify:track` (type `x`, id `1`) the decode yields a URL, not null,
because the platform's first colon-separated segment is supported; and for
the unsupported platform `constructor` the lookup walks the prototype chain
and the decode yields the truthy inherited value, not null. -/
theorem decode_round_trip_cex :
    ((decodeShare (encodeShareId "spotify" "a:b" "c")).musicUrl =
        some (.str "https://open.spotify.com/a/b:c") ∧
      reconstructMusicUrl "spotify" "a:b" "c" =
        some (.str "https://open.spotify.com/a:b/c") ∧
      (some (UrlLookup.str "https://open.spotify.com/a/b:c") : Option UrlLookup) ≠
        some (.str "https://open.spotify.com/a:b/c")) ∧
    ((decodeShare (encodeShareId "spotify:track" "x" "1")).musicUrl =
        some (.str "https://open.spotify.com/track/x:1") ∧
      reconstructMusicUrl "spotify:track" "x" "1" = none) ∧
    ((decodeShare (encodeShareId "constructor" "track" "123")).musicUrl =
        some (.protoValue "constructor") ∧
      reconstructMusicUrl "constructor" "track" "123" =
        some (.protoValue "constructor")) :=
  ⟨⟨by decide, by decide, by decide⟩, ⟨by decide, by decide⟩, by decide, by decide⟩

/-- Witness for `decode_encode_round_trip`: the triple
`spotify`/`track`/`123` (the spec's concrete scenario 3). -/
theorem decode_encode_round_trip_witness :
    ((∀ c ∈ ("spotify" ++ ":" ++ "track" ++ ":" ++ "123").data, c.toNat < 256) ∧
      (∀ c ∈ ("spotify" : String).data, c ≠ ':') ∧
      (∀ c ∈ ("track" : String).data, c ≠ ':')) ∧
    ((decodeShare (encodeShareId "spotify" "track" "123")).musicUrl =
        reconstructMusicUrl "spotify" "track" "123" ∧
      (strToLower "spotify" ∈ supportedKeys →
        ∃ u, reconstructMusicUrl "spotify" "track" "123" = some (.str u)) ∧
      (strToLower "spotify" ∈ protoChainKeys →
        reconstructMusicUrl "spotify" "track" "123" =
          some (.protoValue (strToLower "spotify"))) ∧
      (strToLower "spotify" ∉ supportedKeys → strToLower "spotify" ∉ protoChainKeys →
        reconstructMusicUrl "spotify" "track" "123" = none)) :=
  ⟨⟨by decide, by decide, by decide⟩,
    decode_encode_round_trip "spotify" "track" "123"
      (by decide) (by decide) (by decide)⟩

/-- C8 counterexample: the identifier `Zm9vOnRyYWNrOjEyMw` (URL-safe Base64
of `foo:track:123`) decodes successfully to the triple `foo:track:123` whose
platform `foo` is unsupported, and the worker responds 400
("Unsupported music platform."), not 404. -/
theorem unsupported_platform_404_cex :
    decodeShare "Zm9vOnRyYWNrOjEyMw" = .unsupported "foo" ∧
    shareStatus "Zm9vOnRyYWNrOjEyMw" true = 400 ∧
    shareStatus "Zm9vOnRyYWNrOjEyMw" true ≠ 404 :=
  ⟨by decide, by decide, by decide⟩

/-- C8 (amended): for every `GET /s/{identifier}` request whose identifier
decodes successfully to a `platform:type:id` triple, the response status is
determined by the URL-table lookup on the platform: 400 (the explicit
"Unsupported music platform." branch) exactly when the lookup yields null —
i.e. the platform is unsupported and does not lowercase to an inherited
`Object.prototype` property name — and otherwise (a template URL, or the
truthy inherited lookup for `constructor`/`__proto__`, which passes the
`if (!musicUrl)` test) the request skips the 400 branch and proceeds to the
metadata fetch: 404 on fetch failure, 200 otherwise. -/
theorem unsupported_platform_yields_400 (seg : String) (metadataOk : Bool)
    (bytes : List Nat) (pp tt r1 : List Char) (rs : List (List Char))
    (h1 : atobChars ((padBase64 seg.data).map urlSafeToStdChar) = some bytes)
    (h2 : ((bytes.map Char.ofNat).contains ':' &&
      ! isPrefixOfB "http".data (bytes.map Char.ofNat)) = true)
    (h3 : splitOnChar ':' (bytes.map Char.ofNat) = pp :: tt :: r1 :: rs) :
    shareStatus seg metadataOk =
      (match reconstructMusicUrl ⟨pp⟩ ⟨tt⟩ ⟨joinColon (r1 :: rs)⟩ with
       | none => 400
       | some _ => if metadataOk then 200 else 404) := by
  unfold shareStatus decodeShare
  dsimp only
  rw [h1]
  dsimp only
  rw [if_pos h2, h3]
  dsimp only
  rcases hrec : reconstructMusicUrl ⟨pp⟩ ⟨tt⟩ ⟨joinColon (r1 :: rs)⟩ with _ | v
  · rfl
  · rfl

/-- Witness for `unsupported_platform_yields_400`, applied twice: the
identifier `Zm9vOnRyYWNrOjEyMw` (`foo:track:123`, lookup null, status 400)
and the identifier for `constructor:track:123` (truthy prototype-chain
lookup, status 404 when the metadata fetch fails). -/
theorem unsupported_platform_yields_400_witness :
    (atobChars ((padBase64 ("Zm9vOnRyYWNrOjEyMw" : String).data).map
        urlSafeToStdChar) =
        some [102, 111, 111, 58, 116, 114, 97, 99, 107, 58, 49, 50, 51] ∧
      (([102, 111, 111, 58, 116, 114, 97, 99, 107, 58, 49, 50, 51].map
          Char.ofNat).contains ':' &&
        ! isPrefixOfB "http".data
          ([102, 111, 111, 58, 116, 114, 97, 99, 107, 58, 49, 50, 51].map
            Char.ofNat)) = true ∧
      splitOnChar ':'
          ([102, 111, 111, 58, 116, 114, 97, 99, 107, 58, 49, 50, 51].map
            Char.ofNat) =
        [['f', 'o', 'o'], ['t', 'r', 'a', 'c', 'k'], ['1', '2', '3']]) ∧
    shareStatus "Zm9vOnRyYWNrOjEyMw" false =
      (match reconstructMusicUrl ⟨['f', 'o', 'o']⟩ ⟨['t', 'r', 'a', 'c', 'k']⟩
          ⟨joinColon [['1', '2', '3']]⟩ with
       | none => 400
       | some _ => if false then 200 else 404) ∧
    shareStatus "Zm9vOnRyYWNrOjEyMw" false = 400 ∧
    shareStatus (encodeShareId "constructor" "track" "123") false =
      (match reconstructMusicUrl ⟨("constructor" : String).data⟩
          ⟨['t', 'r', 'a', 'c', 'k']⟩ ⟨joinColon [['1', '2', '3']]⟩ with
       | none => 400
       | some _ => if false then 200 else 404) ∧
    shareStatus (encodeShareId "constructor" "track" "123") false = 404 :=
  ⟨⟨by decide, by decide, by decide⟩,
    unsupported_platform_yields_400 "Zm9vOnRyYWNrOjEyMw" false
      [102, 111, 111, 58, 116, 114, 97, 99, 107, 58, 49, 50, 51]
      ['f', 'o', 'o'] ['t', 'r', 'a', 'c', 'k'] ['1', '2', '3'] []
      (by decide) (by decide) (by decide),
    by decide,
    unsupported_platform_yields_400 (encodeShareId "constructor" "track" "123") false
      [99, 111, 110, 115, 116, 114, 117, 99, 116, 111, 114, 58,
        116, 114, 97, 99, 107, 58, 49, 50, 51]
      ("constructor" : String).data ['t', 'r', 'a', 'c', 'k'] ['1', '2', '3'] []
      (by decide) (by decide) (by decide),
    by decide⟩

end Unitune
